import Mathlib

/- Shallow embedding of src/chalamet-sequence.py: the data model for
   play-by-play records, the three-pitch sequence matcher and its scoring
   closure, the schedule caching logic, the atomic pickle flush and the main
   loop. Network and filesystem effects are modelled as explicit oracles and
   state; Python KeyError / IndexError that the source does not catch are
   modelled as an explicit crash outcome. -/

namespace Baseball

/-- Zone lists from lines 13-14 of the source. -/
def CATCHER_LEFT : List Nat := [1, 4, 7, 11, 13]

/-- Zone list from line 14 of the source. -/
def CATCHER_RIGHT : List Nat := [3, 6, 9, 12, 14]

/-- Details of one pitch event: the call code (details.code, read
unconditionally by the source) and the pitch classification code
(details.type.code). A missing classification raises KeyError in Python,
modelled as none. -/
structure Details where
  code : String
  typeCode : Option String
  deriving DecidableEq

/-- Pitch flight data, the pitchData object: plate zone and release speed; a
missing field raises KeyError when subscripted, modelled as none. altZone
stands for any other location field the raw record may carry; the source never
subscripts it. -/
structure PitchData where
  zone : Option Nat
  startSpeed : Option ℚ
  altZone : Option Nat
  deriving DecidableEq

/-- One entry of play.playEvents. -/
structure PitchEvent where
  details : Details
  pitchData : PitchData
  deriving DecidableEq

/-- Final count of an at-bat, play.count. -/
structure Count where
  balls : Nat
  strikes : Nat
  deriving DecidableEq

/-- Matchup data of an at-bat: batSide.code plus the names used in output. -/
structure Matchup where
  batSide : String
  pitcherName : String
  batterName : String
  deriving DecidableEq

/-- Metadata of an at-bat, play.about. -/
structure About where
  startTime : String
  deriving DecidableEq

/-- One at-bat of game.allPlays. -/
structure Play where
  count : Count
  pitchIndex : List Nat
  playEvents : List PitchEvent
  matchup : Matchup
  about : About
  deriving DecidableEq

/-- Membership of an optional pitch classification code in a pitch family
list. In the source a missing details.type.code raises KeyError, which the
surrounding try/except turns into the same continue as a code outside the
family; both are therefore folded into false here (lines 125-138). -/
def inFamily (tc : Option String) (fam : List String) : Bool :=
  match tc with
  | some t => fam.contains t
  | none => false

/-- Outside zone list chosen on line 144 of the source. -/
def outsideZones (bat_side : String) : List Nat :=
  if bat_side = "R" then CATCHER_RIGHT else CATCHER_LEFT

/-- Inside zone list chosen on line 145 of the source. -/
def insideZones (bat_side : String) : List Nat :=
  if bat_side = "R" then CATCHER_LEFT else CATCHER_RIGHT

/-- Scoring closure get_score, lines 140-171 of the source. The four
pitchData subscripts (first zone, second zone, third startSpeed, third zone)
are outside any try/except; if any is missing the closure raises an uncaught
KeyError, modelled as none. Otherwise each of the six conditions adds one
point. -/
def get_score (bat_side : String) (first second third : PitchEvent) : Option Nat :=
  match first.pitchData.zone, second.pitchData.zone,
      third.pitchData.startSpeed, third.pitchData.zone with
  | some z1, some z2, some sp3, some z3 =>
    some ((if z1 ∈ outsideZones bat_side then 1 else 0)
      + (if z2 ∈ [13, 14] then 1 else 0)
      + (if second.details.code = "S" then 1 else 0)
      + (if sp3 ≥ 96.5 then 1 else 0)
      + (if z3 ∈ insideZones bat_side then 1 else 0)
      + (if third.details.code = "C" then 1 else 0))
  | _, _, _, _ => none

/-- Resolution of play.pitchIndex against play.playEvents, line 117 of the
source; an out-of-range index raises IndexError, modelled as none. -/
def resolvePitches (play : Play) : Option (List PitchEvent) :=
  play.pitchIndex.mapM fun i => play.playEvents.get? i

/-- Outcome of the matcher loop body for one at-bat (lines 108-178): noMatch
when a continue is reached, candidate s when get_score returns s, crash when
an uncaught exception escapes. -/
inductive EvalResult where
  | noMatch : EvalResult
  | crash : EvalResult
  | candidate : Nat → EvalResult
  deriving DecidableEq

/-- Matcher loop body, lines 108-173 of the source, translated check by check
in source order. -/
def evaluatePlay (play : Play) : EvalResult :=
  if ¬ (play.count.balls = 0 ∧ play.count.strikes = 3) then .noMatch
  else if play.pitchIndex.length ≠ 3 then .noMatch
  else
    match resolvePitches play with
    | none => .crash
    | some pitches =>
      if pitches.any (fun p => p.details.code == "AC") then .noMatch
      else
        match pitches with
        | [first, second, third] =>
          if ¬ inFamily first.details.typeCode ["SL", "ST"] then .noMatch
          else if ¬ inFamily second.details.typeCode ["CU", "KC"] then .noMatch
          else if ¬ inFamily third.details.typeCode ["FF", "SI"] then .noMatch
          else
            match get_score play.matchup.batSide first second third with
            | some s => .candidate s
            | none => .crash
        | _ => .crash

/-- Accumulator of the best-play search, lines 52-53 of the source. -/
structure BestState where
  best_plays : List Play
  best_score : Nat
  deriving DecidableEq

/-- Initial accumulator, lines 52-53 of the source. -/
def initBest : BestState := ⟨[], 0⟩

/-- Best-set update, lines 174-178 of the source: on score greater than or
equal to the running best, clear the set when strictly greater, append the
play and set the best score; otherwise leave the state unchanged. -/
def stepBest (st : BestState) (play : Play) (score : Nat) : BestState :=
  if st.best_score ≤ score then
    ⟨(if st.best_score < score then [] else st.best_plays) ++ [play], score⟩
  else st

/-- Ordering key of line 180 of the source: the about.startTime string. -/
def playLE (a b : Play) : Prop :=
  a.about.startTime ≤ b.about.startTime

instance : DecidableRel playLE :=
  fun a b => inferInstanceAs (Decidable (a.about.startTime ≤ b.about.startTime))

instance : IsTotal Play playLE :=
  ⟨fun a b => le_total a.about.startTime b.about.startTime⟩

instance : IsTrans Play playLE :=
  ⟨fun _ _ _ h h' => le_trans h h'⟩

/-- Sort of line 180 of the source. Python list.sort with a key is a stable
sort by that key, and a stable sort by a total preorder is a unique function;
insertion sort is this function. -/
def sortPlays (l : List Play) : List Play :=
  List.insertionSort playLE l

/-- Modelled from the spec words of C2 only, for comparison with get_score:
one point for each of the six conditions, with the zone sets written out as the
claim states them. -/
def specScore (bat_side : String) (z1 z2 : Nat) (code2 : String)
    (sp3 : ℚ) (z3 : Nat) (code3 : String) : Nat :=
  (if z1 ∈ (if bat_side = "R" then [3, 6, 9, 12, 14] else [1, 4, 7, 11, 13]) then 1 else 0)
  + (if z2 = 13 ∨ z2 = 14 then 1 else 0)
  + (if code2 = "S" then 1 else 0)
  + (if sp3 ≥ 96.5 then 1 else 0)
  + (if z3 ∈ (if bat_side = "R" then [1, 4, 7, 11, 13] else [3, 6, 9, 12, 14]) then 1 else 0)
  + (if code3 = "C" then 1 else 0)

/-- Calendar date as built by datetime.date(year, month, day). -/
structure Date where
  year : Nat
  month : Nat
  day : Nat
  deriving DecidableEq

/-- Leap-year rule used by calendar.monthrange. -/
def isLeapYear (y : Nat) : Bool :=
  (y % 4 == 0 && y % 100 != 0) || (y % 400 == 0)

/-- Number of days in a month, the second component of calendar.monthrange
(line 28 of the source). -/
def monthrange (y m : Nat) : Nat :=
  if m == 2 then (if isLeapYear y then 29 else 28)
  else if m == 4 || m == 6 || m == 9 || m == 11 then 30
  else 31

/-- One scheduled game of a season schedule, with the keys the source reads. -/
structure ScheduledGame where
  game_id : Nat
  status : String
  game_type : String
  deriving DecidableEq

/-- Network call get_schedule, lines 17-20 of the source: the remote service
is an oracle from a date range to a list of games, and every call is appended
to an explicit request log. The tenacity retry wrapper only repeats the call
until success and is invisible here. -/
def get_schedule (fetch : Date → Date → List ScheduledGame)
    (log : List (Date × Date)) (start_date end_date : Date) :
    List ScheduledGame × List (Date × Date) :=
  (fetch start_date end_date, log ++ [(start_date, end_date)])

/-- Month-by-month schedule fetch get_games, lines 23-32 of the source: for
month in range(1, 13), fetch the range from the first to the last day of that
month of the year and concatenate. -/
def get_games (fetch : Date → Date → List ScheduledGame)
    (log : List (Date × Date)) (year : Nat) :
    List ScheduledGame × List (Date × Date) :=
  (List.range' 1 12).foldl
    (fun acc month =>
      let start_date : Date := ⟨year, month, 1⟩
      let end_date : Date := ⟨year, month, monthrange year month⟩
      let r := get_schedule fetch acc.2 start_date end_date
      (acc.1 ++ r.1, r.2))
    ([], log)

/-- Date ranges requested by get_games for one year, in request order. -/
def monthRanges (year : Nat) : List (Date × Date) :=
  (List.range' 1 12).map fun month =>
    (⟨year, month, 1⟩, ⟨year, month, monthrange year month⟩)

/-- State of the schedule cache: the in-memory dict of line 55, the current
content of pickles/schedules.pickle (none when the file does not exist), and
the request log of the network oracle. The dict is an association list where
assignment conses and lookup takes the first hit. -/
structure SchedCache where
  schedules : List (Nat × List ScheduledGame)
  persisted : Option (List (Nat × List ScheduledGame))
  log : List (Date × Date)
  deriving DecidableEq

/-- Schedule lookup, fetch and persist step of the main loop, lines 65-77 of
the source: a year present in the in-memory dict is returned directly;
otherwise get_games runs, and when the year is strictly before the current
year the fetched list is stored in the dict and the whole dict is written to
pickles/schedules.pickle. -/
def get_or_fetch_schedule (fetch : Date → Date → List ScheduledGame)
    (current_year : Nat) (sc : SchedCache) (year : Nat) :
    List ScheduledGame × SchedCache :=
  match sc.schedules.lookup year with
  | some games => (games, sc)
  | none =>
    let r := get_games fetch sc.log year
    if year < current_year then
      let schedules' := (year, r.1) :: sc.schedules
      (r.1, ⟨schedules', some schedules', r.2⟩)
    else
      (r.1, ⟨sc.schedules, sc.persisted, r.2⟩)

/-- Byte content of a file. -/
def Blob : Type := List Nat

instance : DecidableEq Blob := inferInstanceAs (DecidableEq (List Nat))

/-- Filesystem as a map from paths to file contents. -/
def FS : Type := String → Option Blob

/-- Pointwise filesystem update. -/
def fsUpdate (fs : FS) (p : String) (v : Option Blob) : FS :=
  fun q => if q = p then v else fs q

/-- Default directory of tempfile.NamedTemporaryFile on the host. The source
passes no dir argument on line 42, so the temporary file is created in
tempfile.gettempdir(), a location independent of the destination path. -/
def tmpdir : String := "/tmp"

/-- Path of the temporary file created by tempfile.NamedTemporaryFile with a
fresh random name. -/
def tempPath (tmpName : String) : String :=
  tmpdir ++ "/" ++ tmpName

/-- Directory component of a path over its character list: everything before
the last slash. -/
def dirnameChars (l : List Char) : List Char :=
  ((l.reverse.dropWhile (fun c => c != '/')).drop 1).reverse

/-- Directory component of a path: everything before the last slash. -/
def dirname (p : String) : String :=
  String.mk (dirnameChars p.data)

/-- Final filesystem state of pickle_dump, lines 41-45 of the source: the
blob is written to the fresh temporary file and the temporary file is renamed
over the destination. -/
def pickle_dump (fs : FS) (data : Blob) (tmpName path : String) : FS :=
  fsUpdate
    (fsUpdate (fsUpdate fs (tempPath tmpName) (some data)) (tempPath tmpName) none)
    path (some data)

/-- Sequence of observable filesystem states during pickle_dump, lines 41-45
of the source: one state for every prefix of the blob written so far to the
temporary file, then the state after the atomic rename. A crash during the
flush leaves the filesystem at one of the states before the last. -/
def pickle_dump_states (fs : FS) (data : Blob) (tmpName path : String) : List FS :=
  (((List.range (data.length + 1)).map
      fun k => fsUpdate fs (tempPath tmpName) (some (data.take k))))
  ++ [pickle_dump fs data tmpName path]

/-- Play-by-play record of one game as returned by statsapi get, of which the
source reads the allPlays list. -/
structure GameRecord where
  allPlays : List Play
  deriving DecidableEq

/-- External world of one run: the two network oracles and the initial
content of the cache files (none when a file does not exist), plus the current
calendar year of line 63. -/
structure Env where
  fetchSched : Date → Date → List ScheduledGame
  fetchPbp : Nat → GameRecord
  schedFile : Option (List (Nat × List ScheduledGame))
  pbpFile : Nat → Option (List (Nat × GameRecord))
  current_year : Nat

/-- Observable state threaded through the main loop: the best-play
accumulator, the in-memory schedule dict, the current persisted content of
the two cache families, the request logs of the two network oracles, and the
console output. Per-year locals (the play-by-play map and its dirty flag)
live only inside processYear, so a crash drops them exactly as the real
process would. -/
structure RunState where
  best : BestState
  schedules : List (Nat × List ScheduledGame)
  schedPersisted : Option (List (Nat × List ScheduledGame))
  pbpPersisted : List (Nat × List (Nat × GameRecord))
  schedLog : List (Date × Date)
  pbpLog : List Nat
  out : List String
  deriving DecidableEq

/-- Console print gated by the quiet flag, as in lines 68, 75, 84, 181 and
192 of the source. -/
def emit (quiet : Bool) (msg : String) (st : RunState) : RunState :=
  if quiet then st else { st with out := st.out ++ [msg] }

/-- Matcher plus best-set update for one at-bat, lines 108-178 of the source:
a continue leaves the state unchanged, a scored candidate goes through
stepBest, and an uncaught exception aborts the run carrying the observable
state at the crash. -/
def processPlay (st : RunState) (play : Play) : Except RunState RunState :=
  match evaluatePlay play with
  | .noMatch => .ok st
  | .crash => .error st
  | .candidate s => .ok { st with best := stepBest st.best play s }

/-- Loop over game allPlays, line 108 of the source. -/
def processPlays (st : RunState) (plays : List Play) : Except RunState RunState :=
  List.foldlM processPlay st plays

/-- Body of the game loop after the status and game-type filters, lines
99-178 of the source: the play-by-play record is served from the per-year map
or fetched and stored with the dirty flag set, then every at-bat is
evaluated. -/
def processFinalGame (env : Env)
    (acc : RunState × List (Nat × GameRecord) × Bool) (g : ScheduledGame) :
    Except RunState (RunState × List (Nat × GameRecord) × Bool) :=
  match acc.2.1.lookup g.game_id with
  | some game =>
    (processPlays acc.1 game.allPlays).map fun st' => (st', acc.2.1, acc.2.2)
  | none =>
    (processPlays { acc.1 with pbpLog := acc.1.pbpLog ++ [g.game_id] }
        (env.fetchPbp g.game_id).allPlays).map
      fun st' => (st', (g.game_id, env.fetchPbp g.game_id) :: acc.2.1, true)

/-- One iteration of the game loop, lines 92-178 of the source: a game whose
status is not Final, or whose game_type is E or S, is skipped entirely. -/
def processGame (env : Env)
    (acc : RunState × List (Nat × GameRecord) × Bool) (g : ScheduledGame) :
    Except RunState (RunState × List (Nat × GameRecord) × Bool) :=
  if g.status ≠ "Final" then .ok acc
  else if g.game_type = "E" ∨ g.game_type = "S" then .ok acc
  else processFinalGame env acc g

/-- Modelled from the spec words of C8 only, for comparison with processGame:
a game is processed when it is finished and is a regular-season game, that is
neither an exhibition nor a spring-training game. -/
def specProcessed (g : ScheduledGame) : Prop :=
  g.status = "Final" ∧ g.game_type ≠ "E" ∧ g.game_type ≠ "S"

instance (g : ScheduledGame) : Decidable (specProcessed g) :=
  inferInstanceAs (Decidable (_ ∧ _ ∧ _))

/-- Console line best_score= of lines 182 and 196 of the source. -/
def bestScoreLine (s : Nat) : String :=
  "best_score=" ++ toString s

/-- Console line for one best play, lines 185 and 199 of the source. -/
def playLine (p : Play) : String :=
  p.about.startTime ++ " - " ++ p.matchup.pitcherName ++ " to " ++ p.matchup.batterName

/-- Joined console block for the best plays, lines 183-188 and 197-202. -/
def playsLines (l : List Play) : String :=
  String.intercalate ("\n") (l.map playLine)

/-- Schedule phase of one year iteration, lines 65-77 of the source: cache
lookup, quiet-gated prints, monthly fetch and conditional persist, returning
the games of the year and the updated state. -/
def yearSchedule (env : Env) (quiet : Bool) (st0 : RunState) (year : Nat) :
    List ScheduledGame × RunState :=
  let hit := (st0.schedules.lookup year).isSome
  let st1 := if hit then st0
    else emit quiet ("fetching " ++ toString year ++ " games") st0
  let st2 := if hit then st1
    else if year < env.current_year
      then emit quiet ("writing pickles/schedules.pickle") st1
      else st1
  let r := get_or_fetch_schedule env.fetchSched env.current_year
    ⟨st2.schedules, st2.schedPersisted, st2.schedLog⟩ year
  (r.1, { st2 with schedules := r.2.schedules,
                   schedPersisted := r.2.persisted,
                   schedLog := r.2.log })

/-- Play-by-play cache file read of one year iteration, lines 79-88 of the
source: the per-year pickle is loaded when it exists (with a quiet-gated
print), an absent file means an empty map. -/
def yearReadPbp (env : Env) (quiet : Bool) (st3 : RunState) (year : Nat) :
    List (Nat × GameRecord) × RunState :=
  match env.pbpFile year with
  | some m => (m, emit quiet ("reading pickles/pbp" ++ toString year ++ ".pickle") st3)
  | none => ([], st3)

/-- Tail of one year iteration, lines 180-194 of the source: sort of the
global best list, quiet-gated report, and dirty-flag-guarded flush of the
per-year play-by-play pickle. -/
def yearFinish (quiet : Bool) (year : Nat)
    (acc : RunState × List (Nat × GameRecord) × Bool) : RunState :=
  let st5 := acc.1
  let st6 := { st5 with best := ⟨sortPlays st5.best.best_plays, st5.best.best_score⟩ }
  let st7 := emit quiet (bestScoreLine st6.best.best_score) st6
  let st8 := emit quiet (playsLines st6.best.best_plays) st7
  if acc.2.2 then
    let st9 := emit quiet ("writing pickles/pbp" ++ toString year ++ ".pickle") st8
    { st9 with pbpPersisted := (year, acc.2.1) :: st9.pbpPersisted }
  else st8

/-- One iteration of the year loop, lines 65-194 of the source, composed of
the three phases around the game loop. The tqdm progress bar of line 92
writes only to the display and is not an observable of the model. -/
def processYear (env : Env) (quiet : Bool) (st0 : RunState) (year : Nat) :
    Except RunState RunState :=
  match List.foldlM (processGame env)
      ((yearReadPbp env quiet (yearSchedule env quiet st0 year).2 year).2,
       (yearReadPbp env quiet (yearSchedule env quiet st0 year).2 year).1, false)
      (yearSchedule env quiet st0 year).1 with
  | .error stc => .error stc
  | .ok acc => .ok (yearFinish quiet year acc)

/-- Year list of line 65 of the source, range(current_year, 2007, -1). -/
def yearsList (current_year : Nat) : List Nat :=
  (List.range' 2008 (current_year - 2007)).reverse

/-- Initial observable state, lines 52-61 of the source: empty best set,
score zero, and the schedule dict loaded from pickles/schedules.pickle when
that file exists. -/
def initState (env : Env) : RunState :=
  { best := initBest
    schedules := env.schedFile.getD []
    schedPersisted := env.schedFile
    pbpPersisted := []
    schedLog := []
    pbpLog := []
    out := [] }

/-- Whole run of the script for a given world and quiet flag, lines 48-202 of
the source: the year loop followed by the unconditional final report. An
error value is the observable state at an uncaught exception. -/
def runProgram (env : Env) (quiet : Bool) : Except RunState RunState :=
  match List.foldlM (processYear env quiet) (initState env) (yearsList env.current_year) with
  | .error st => .error st
  | .ok st =>
    .ok { st with out := st.out ++ [bestScoreLine st.best.best_score, playsLines st.best.best_plays] }

/-- Console-free observables of a run: best set and score, in-memory
schedule dict, the persisted content of both cache families, and the two
network request logs. -/
abbrev Core : Type :=
  BestState × List (Nat × List ScheduledGame) × Option (List (Nat × List ScheduledGame))
    × List (Nat × List (Nat × GameRecord)) × List (Date × Date) × List Nat

/-- Projection of the observable state onto everything except the console
output. -/
def RunState.core (st : RunState) : Core :=
  (st.best, st.schedules, st.schedPersisted, st.pbpPersisted, st.schedLog, st.pbpLog)

/-- Projection of a run result onto the console-free observables, kept on
both the normal and the crashed outcome. -/
def coreResult (r : Except RunState RunState) : Except Core Core :=
  match r with
  | .ok st => .ok st.core
  | .error st => .error st.core

/-- Projection of the game-loop accumulator onto its console-free part. -/
def accCore (a : RunState × List (Nat × GameRecord) × Bool) :
    Core × List (Nat × GameRecord) × Bool :=
  (a.1.core, a.2)

/-- Projection of a game-loop outcome onto its console-free part. -/
def coreResultAcc (r : Except RunState (RunState × List (Nat × GameRecord) × Bool)) :
    Except Core (Core × List (Nat × GameRecord) × Bool) :=
  match r with
  | .ok a => .ok (accCore a)
  | .error st => .error st.core

/-- Example slider: called pitch, zone 9 which is outside for a right-handed
batter. -/
def exFirst : PitchEvent :=
  { details := { code := "F", typeCode := some "SL" }
    pitchData := { zone := some 9, startSpeed := some 85, altZone := none } }

/-- Example curveball in the dirt with a swinging strike. -/
def exSecond : PitchEvent :=
  { details := { code := "S", typeCode := some "CU" }
    pitchData := { zone := some 13, startSpeed := some 81, altZone := none } }

/-- Example fastball at 97, inside for a right-handed batter, called strike. -/
def exThird : PitchEvent :=
  { details := { code := "C", typeCode := some "FF" }
    pitchData := { zone := some 4, startSpeed := some 97, altZone := none } }

/-- Example fastball identical to exThird but at 90. -/
def exThirdSlow : PitchEvent :=
  { details := { code := "C", typeCode := some "FF" }
    pitchData := { zone := some 4, startSpeed := some 90, altZone := none } }

/-- Three-pitch strikeout at-bat built from the example pitches. -/
def goodPlay : Play :=
  { count := { balls := 0, strikes := 3 }
    pitchIndex := [0, 1, 2]
    playEvents := [exFirst, exSecond, exThird]
    matchup := { batSide := "R", pitcherName := "Cole", batterName := "Judge" }
    about := { startTime := "2024-05-01T01:02:03Z" } }

/-- Example slider whose zone is exposed only under the secondary location
field: the primary pitchData.zone is absent. -/
def exFirstAltOnly : PitchEvent :=
  { details := { code := "F", typeCode := some "SL" }
    pitchData := { zone := none, startSpeed := some 85, altZone := some 9 } }

/-- Example slider with a missing classification field. -/
def exFirstNoType : PitchEvent :=
  { details := { code := "F", typeCode := none }
    pitchData := { zone := some 9, startSpeed := some 85, altZone := none } }

/-- Replacement of the secondary location field of a pitch event. -/
def setAltZone (p : PitchEvent) (a : Option Nat) : PitchEvent :=
  { p with pitchData := { p.pitchData with altZone := a } }

/-- Three-pitch strikeout whose first pitch lacks the primary zone field. -/
def badZonePlay : Play :=
  { count := { balls := 0, strikes := 3 }
    pitchIndex := [0, 1, 2]
    playEvents := [exFirstAltOnly, exSecond, exThird]
    matchup := { batSide := "R", pitcherName := "Cole", batterName := "Judge" }
    about := { startTime := "2023-06-02T02:03:04Z" } }

/-- Three-pitch strikeout whose first pitch lacks the classification field. -/
def missingTypePlay : Play :=
  { count := { balls := 0, strikes := 3 }
    pitchIndex := [0, 1, 2]
    playEvents := [exFirstNoType, exSecond, exThird]
    matchup := { batSide := "R", pitcherName := "Cole", batterName := "Judge" }
    about := { startTime := "2023-06-03T02:03:04Z" } }

/-- Empty observable run state used for concrete play-loop evaluations. -/
def initRS : RunState :=
  { best := initBest, schedules := [], schedPersisted := none, pbpPersisted := []
    schedLog := [], pbpLog := [], out := [] }

/-- Concrete environment with empty oracles for witness instantiations. -/
def emptyEnv : Env :=
  { fetchSched := fun _ _ => []
    fetchPbp := fun _ => { allPlays := [] }
    schedFile := none
    pbpFile := fun _ => none
    current_year := 2025 }

/-- Concrete finished regular-season game. -/
def finalGame : ScheduledGame :=
  { game_id := 4, status := "Final", game_type := "R" }

/-- Helper: an Option-valued mapM that succeeds preserves the length. -/
theorem mapM_option_length {α β : Type} (f : α → Option β) :
    ∀ (l : List α) (l' : List β), l.mapM f = some l' → l'.length = l.length := by
  intro l
  induction l with
  | nil => intro l' h; simp only [List.mapM_nil, pure, Option.some.injEq] at h; simp [← h]
  | cons a t ih =>
    intro l' h
    simp only [List.mapM_cons] at h
    cases hfa : f a with
    | none => rw [hfa] at h; simp [bind] at h
    | some b =>
      rw [hfa] at h
      cases ht : t.mapM f with
      | none => rw [ht] at h; simp [bind] at h
      | some tl =>
        rw [ht] at h
        simp only [bind, Option.bind, pure, Option.some.injEq] at h
        rw [← h]
        simp [ih tl ht]

/-- C1: an at-bat is a candidate (the matcher reaches the scoring step rather
than one of the continue statements) exactly when the final count is 0 and 3,
exactly three pitch events are associated with it, none of the three carries
the automatic-strike code AC, and the three classification codes are in the
slider, curveball and fastball families in that order; failing any condition
yields no-match. The count and length gates are stated for every at-bat, the
rest for at-bats whose pitch indices resolve. -/
theorem c1_candidate_iff :
    (∀ play : Play,
        ¬ (play.count.balls = 0 ∧ play.count.strikes = 3 ∧ play.pitchIndex.length = 3) →
        evaluatePlay play = EvalResult.noMatch) ∧
    (∀ (play : Play) (p1 p2 p3 : PitchEvent),
        resolvePitches play = some [p1, p2, p3] →
        (evaluatePlay play ≠ EvalResult.noMatch ↔
          (play.count.balls = 0 ∧ play.count.strikes = 3 ∧ play.pitchIndex.length = 3 ∧
           p1.details.code ≠ "AC" ∧ p2.details.code ≠ "AC" ∧ p3.details.code ≠ "AC" ∧
           inFamily p1.details.typeCode ["SL", "ST"] = true ∧
           inFamily p2.details.typeCode ["CU", "KC"] = true ∧
           inFamily p3.details.typeCode ["FF", "SI"] = true))) := by
  constructor
  · intro play h
    by_cases hc : play.count.balls = 0 ∧ play.count.strikes = 3
    · have hl : play.pitchIndex.length ≠ 3 := fun hlen => h ⟨hc.1, hc.2, hlen⟩
      simp [evaluatePlay, hc, hl]
    · simp [evaluatePlay, hc]
  · intro play p1 p2 p3 h
    have hlen : play.pitchIndex.length = 3 := by
      have := mapM_option_length _ _ _ h
      simpa using this.symm
    by_cases hc : play.count.balls = 0 ∧ play.count.strikes = 3
    · simp only [evaluatePlay, hc, not_true_eq_false, if_false, hlen, ne_eq,
        not_false_eq_true, if_neg, h]
      by_cases hac : p1.details.code = "AC" ∨ p2.details.code = "AC" ∨ p3.details.code = "AC"
      · have : ([p1, p2, p3].any fun p => p.details.code == "AC") = true := by
          simp [List.any, hac]
        simp only [this, if_true]
        simp [hc, hlen]
        tauto
      · have hany : ([p1, p2, p3].any fun p => p.details.code == "AC") = false := by
          push_neg at hac
          simp [List.any, hac.1, hac.2.1, hac.2.2]
        simp only [hany, Bool.false_eq_true, if_false]
        push_neg at hac
        by_cases h1 : inFamily p1.details.typeCode ["SL", "ST"] = true
        · by_cases h2 : inFamily p2.details.typeCode ["CU", "KC"] = true
          · by_cases h3 : inFamily p3.details.typeCode ["FF", "SI"] = true
            · simp only [h1, h2, h3, not_true_eq_false, if_false]
              cases hg : get_score play.matchup.batSide p1 p2 p3 with
              | none => simp [hc, hlen, hac.1, hac.2.1, hac.2.2, h1, h2, h3]
              | some s => simp [hc, hlen, hac.1, hac.2.1, hac.2.2, h1, h2, h3]
            · simp [h1, h2, h3]
          · simp [h1, h2]
        · simp [h1]
    · have : evaluatePlay play = EvalResult.noMatch := by simp [evaluatePlay, hc]
      simp [this]
      tauto

/-- C1 witness: the concrete three-pitch strikeout resolves and the
equivalence holds for it. -/
theorem c1_witness :
    evaluatePlay goodPlay ≠ EvalResult.noMatch ↔
      (goodPlay.count.balls = 0 ∧ goodPlay.count.strikes = 3 ∧
       goodPlay.pitchIndex.length = 3 ∧
       exFirst.details.code ≠ "AC" ∧ exSecond.details.code ≠ "AC" ∧
       exThird.details.code ≠ "AC" ∧
       inFamily exFirst.details.typeCode ["SL", "ST"] = true ∧
       inFamily exSecond.details.typeCode ["CU", "KC"] = true ∧
       inFamily exThird.details.typeCode ["FF", "SI"] = true) :=
  c1_candidate_iff.2 goodPlay exFirst exSecond exThird (by decide)

/-- C2: for a candidate at-bat the score is the sum of one point for each of
the six conditions with the zone sets of the claim (stated as agreement of
get_score with the spec-side specScore on the four resolved fields), the
score never exceeds 6, the six-condition example scores 6 and drops to 5 when
the third pitch is at 90, and for every zone of the two catcher lists the
outside determination flips between right- and left-handed batters. -/
theorem c2_scoring :
    (∀ (bat_side : String) (p1 p2 p3 : PitchEvent) (z1 z2 : Nat) (sp3 : ℚ) (z3 : Nat),
        p1.pitchData.zone = some z1 → p2.pitchData.zone = some z2 →
        p3.pitchData.startSpeed = some sp3 → p3.pitchData.zone = some z3 →
        get_score bat_side p1 p2 p3 =
          some (specScore bat_side z1 z2 p2.details.code sp3 z3 p3.details.code)) ∧
    (∀ (bat_side : String) (z1 z2 : Nat) (code2 : String) (sp3 : ℚ) (z3 : Nat) (code3 : String),
        specScore bat_side z1 z2 code2 sp3 z3 code3 ≤ 6) ∧
    (get_score ("R") exFirst exSecond exThird = some 6 ∧
     get_score ("R") exFirst exSecond exThirdSlow = some 5) ∧
    ((∀ z ∈ CATCHER_RIGHT, z ∈ outsideZones ("R") ∧ z ∉ outsideZones ("L")) ∧
     (∀ z ∈ CATCHER_LEFT, z ∉ outsideZones ("R") ∧ z ∈ outsideZones ("L"))) := by
  refine ⟨?_, ?_, ⟨?_, ?_⟩, ?_⟩
  · intro bat_side p1 p2 p3 z1 z2 sp3 z3 h1 h2 h3 h4
    simp only [get_score, h1, h2, h3, h4, specScore, outsideZones, insideZones,
      CATCHER_LEFT, CATCHER_RIGHT, Option.some.injEq]
    congr 1
    simp [List.mem_cons]
  · intro bat_side z1 z2 code2 sp3 z3 code3
    unfold specScore
    split_ifs <;> norm_num
  · norm_num [get_score, exFirst, exSecond, exThird, outsideZones, insideZones,
      CATCHER_LEFT, CATCHER_RIGHT]
  · norm_num [get_score, exFirst, exSecond, exThirdSlow, outsideZones, insideZones,
      CATCHER_LEFT, CATCHER_RIGHT]
  · constructor <;> decide

/-- C2 witness: the agreement of get_score with specScore instantiated at the
concrete example pitches for a right-handed batter. -/
theorem c2_witness :
    get_score ("R") exFirst exSecond exThird =
      some (specScore ("R") 9 13 (exSecond.details.code) 97 4 (exThird.details.code)) :=
  c2_scoring.1 ("R") exFirst exSecond exThird 9 13 97 4 rfl rfl rfl rfl

/-- Helper: one stepBest never lowers the running best score. -/
theorem stepBest_score_mono (st : BestState) (p : Play) (s : Nat) :
    st.best_score ≤ (stepBest st p s).best_score := by
  unfold stepBest
  split
  · assumption
  · exact le_refl _

/-- Helper: folding stepBest over any candidate list never lowers the
running best score. -/
theorem foldl_stepBest_score_mono (l : List (Play × Nat)) :
    ∀ st : BestState,
      st.best_score ≤ (List.foldl (fun a pr => stepBest a pr.1 pr.2) st l).best_score := by
  induction l with
  | nil => intro st; exact le_refl _
  | cons hd tl ih =>
    intro st
    exact le_trans (stepBest_score_mono st hd.1 hd.2) (ih (stepBest st hd.1 hd.2))

/-- C3: the best-set reducer starts a fresh singleton set on a strictly
better score, appends on an equal score, drops a lower score, retains exactly
the three plays scoring 5 from the score sequence 2, 5, 5, 3, 5, and the
final output list is sorted by the at-bat start time. -/
theorem c3_best_set_reducer :
    (∀ (st : BestState) (p : Play) (s : Nat),
        st.best_score < s → stepBest st p s = ⟨[p], s⟩) ∧
    (∀ (st : BestState) (p : Play) (s : Nat),
        s = st.best_score → stepBest st p s = ⟨st.best_plays ++ [p], st.best_score⟩) ∧
    (∀ (st : BestState) (p : Play) (s : Nat),
        s < st.best_score → stepBest st p s = st) ∧
    (∀ p1 p2 p3 p4 p5 : Play,
        List.foldl (fun a pr => stepBest a pr.1 pr.2) initBest
          [(p1, 2), (p2, 5), (p3, 5), (p4, 3), (p5, 5)] = ⟨[p2, p3, p5], 5⟩) ∧
    (∀ l : List Play, List.Sorted playLE (sortPlays l)) := by
  refine ⟨?_, ?_, ?_, ?_, ?_⟩
  · intro st p s h
    unfold stepBest
    rw [if_pos (le_of_lt h), if_pos h]
    rfl
  · intro st p s h
    subst h
    unfold stepBest
    rw [if_pos (le_refl _), if_neg (lt_irrefl _)]
  · intro st p s h
    unfold stepBest
    rw [if_neg (not_le_of_lt h)]
  · intro p1 p2 p3 p4 p5
    rfl
  · intro l
    exact List.sorted_insertionSort playLE l

/-- C3 witness: a strictly better candidate resets the best set to a
singleton, instantiated at the initial state. -/
theorem c3_witness :
    stepBest initBest goodPlay 2 = ⟨[goodPlay], 2⟩ :=
  c3_best_set_reducer.1 initBest goodPlay 2 (by decide)

/-- C10: the running best score starts at 0, a single update and a whole fold
never lower it, and a candidate scoring 0 is still appended to the best set
while the running best is 0. -/
theorem c10_zero_score_admission :
    initBest.best_score = 0 ∧
    (∀ (st : BestState) (p : Play) (s : Nat),
        st.best_score ≤ (stepBest st p s).best_score) ∧
    (∀ (l : List (Play × Nat)) (st : BestState),
        st.best_score ≤ (List.foldl (fun a pr => stepBest a pr.1 pr.2) st l).best_score) ∧
    (∀ (st : BestState) (p : Play), st.best_score = 0 →
        stepBest st p 0 = ⟨st.best_plays ++ [p], 0⟩) := by
  refine ⟨rfl, stepBest_score_mono, fun l st => foldl_stepBest_score_mono l st, ?_⟩
  intro st p h
  unfold stepBest
  rw [h]
  rw [if_pos (le_refl _), if_neg (lt_irrefl _)]

/-- C10 witness: a zero-scoring play is appended to the empty best set of the
initial state. -/
theorem c10_witness :
    stepBest initBest goodPlay 0 = ⟨initBest.best_plays ++ [goodPlay], 0⟩ :=
  c10_zero_score_admission.2.2.2 initBest goodPlay rfl

/-- Helper: the month loop of get_games runs over the twelve months. -/
theorem range_twelve : List.range' 1 12 = [1, 2, 3, 4, 5, 6, 7, 8, 9, 10, 11, 12] := rfl

/-- Helper: get_games appends exactly the twelve monthly ranges to the
request log and concatenates the twelve monthly answers in order. -/
theorem get_games_spec (fetch : Date → Date → List ScheduledGame)
    (log : List (Date × Date)) (year : Nat) :
    (get_games fetch log year).2 = log ++ monthRanges year ∧
    (get_games fetch log year).1 = ((monthRanges year).map fun r => fetch r.1 r.2).flatten := by
  constructor <;>
    simp [get_games, get_schedule, monthRanges, range_twelve, List.append_assoc]

/-- C4: a year present in the in-memory cache is returned directly with no
network request and no state change; a missing year is fetched by twelve
single-calendar-month ranges (first to last day of each month, never a
full-year range) whose answers are concatenated; the result is committed to
the persisted schedule cache exactly when the year is strictly before the
current year; and a second call for a past year is served from the cache, so
the request log still holds only the twelve ranges of the single fetch. -/
theorem c4_schedule_cache :
    (∀ (fetch : Date → Date → List ScheduledGame) (cy : Nat) (sc : SchedCache)
        (y : Nat) (g : List ScheduledGame),
        sc.schedules.lookup y = some g →
        get_or_fetch_schedule fetch cy sc y = (g, sc)) ∧
    (∀ (fetch : Date → Date → List ScheduledGame) (log : List (Date × Date)) (y : Nat),
        (get_games fetch log y).2 = log ++ monthRanges y ∧
        (get_games fetch log y).1 = ((monthRanges y).map fun r => fetch r.1 r.2).flatten) ∧
    (∀ y : Nat, (monthRanges y).length = 12 ∧
        ∀ r ∈ monthRanges y,
          r.1.year = y ∧ r.2.year = y ∧ r.1.month = r.2.month ∧
          1 ≤ r.1.month ∧ r.1.month ≤ 12 ∧
          r.1.day = 1 ∧ r.2.day = monthrange y r.1.month) ∧
    (∀ (fetch : Date → Date → List ScheduledGame) (cy : Nat) (sc : SchedCache) (y : Nat),
        sc.schedules.lookup y = none →
        (y < cy →
          get_or_fetch_schedule fetch cy sc y =
            ((get_games fetch sc.log y).1,
             ⟨(y, (get_games fetch sc.log y).1) :: sc.schedules,
              some ((y, (get_games fetch sc.log y).1) :: sc.schedules),
              (get_games fetch sc.log y).2⟩)) ∧
        (¬ y < cy →
          get_or_fetch_schedule fetch cy sc y =
            ((get_games fetch sc.log y).1,
             ⟨sc.schedules, sc.persisted, (get_games fetch sc.log y).2⟩))) ∧
    (∀ (fetch : Date → Date → List ScheduledGame) (cy : Nat) (sc : SchedCache) (y : Nat),
        sc.schedules.lookup y = none → y < cy →
        get_or_fetch_schedule fetch cy (get_or_fetch_schedule fetch cy sc y).2 y =
          ((get_or_fetch_schedule fetch cy sc y).1, (get_or_fetch_schedule fetch cy sc y).2) ∧
        (get_or_fetch_schedule fetch cy sc y).2.log = sc.log ++ monthRanges y) := by
  refine ⟨?_, ?_, ?_, ?_, ?_⟩
  · intro fetch cy sc y g h
    unfold get_or_fetch_schedule
    rw [h]
  · intro fetch log y
    exact get_games_spec fetch log y
  · intro y
    constructor
    · rfl
    · intro r hr
      simp only [monthRanges, range_twelve, List.map_cons, List.map_nil, List.mem_cons,
        List.not_mem_nil, or_false] at hr
      rcases hr with h | h | h | h | h | h | h | h | h | h | h | h <;>
        subst h <;> exact ⟨rfl, rfl, rfl, by norm_num, by norm_num, rfl, rfl⟩
  · intro fetch cy sc y h
    constructor
    · intro hy
      unfold get_or_fetch_schedule
      rw [h]
      simp only [hy, if_true]
    · intro hy
      unfold get_or_fetch_schedule
      rw [h]
      simp only [hy, if_false]
  · intro fetch cy sc y h hy
    have hfirst : get_or_fetch_schedule fetch cy sc y =
        ((get_games fetch sc.log y).1,
         ⟨(y, (get_games fetch sc.log y).1) :: sc.schedules,
          some ((y, (get_games fetch sc.log y).1) :: sc.schedules),
          (get_games fetch sc.log y).2⟩) := by
      unfold get_or_fetch_schedule
      rw [h]
      simp only [hy, if_true]
    constructor
    · rw [hfirst]
      unfold get_or_fetch_schedule
      simp [List.lookup]
    · rw [hfirst]
      exact (get_games_spec fetch sc.log y).1

/-- C4 witness: a concrete cache hit is served directly with an unchanged
state, and the second-call law instantiated on a concrete empty cache for a
past year. -/
theorem c4_witness :
    get_or_fetch_schedule (fun _ _ => []) 2025 ⟨[(2020, [])], none, []⟩ 2020 =
      ([], ⟨[(2020, [])], none, []⟩) :=
  c4_schedule_cache.1 (fun _ _ => []) 2025 ⟨[(2020, [])], none, []⟩ 2020 [] rfl

/-- C5 counterexample: the temporary file of pickle_dump lives under the
default temporary directory, which is not the directory of the schedule cache
destination the program writes; the first observable state of a flush writes
under that foreign path. This refutes the located-in-the-same-directory part
of the claim. -/
theorem c5_counterexample :
    tempPath ("tmp7h3q") = "/tmp/tmp7h3q" ∧
    dirname (tempPath ("tmp7h3q")) ≠ dirname ("pickles/schedules.pickle") ∧
    (pickle_dump_states (fun _ => none) [7] ("tmp7h3q") ("pickles/schedules.pickle")).head? =
      some (fsUpdate (fun _ => none) (tempPath ("tmp7h3q")) (some [])) := by
  refine ⟨rfl, by decide, rfl⟩

/-- C5 amended: pickle_dump writes the complete blob to a fresh temporary
file in the default temporary directory and renames it over the destination;
at every observable state before the rename the destination content is
unchanged, the final state holds the complete blob at the destination, and no
other path is ever touched, so no reader observes a partially written
destination file. -/
theorem c5_flush_keeps_destination :
    ∀ (fs : FS) (data : Blob) (tmpName path : String),
      tempPath tmpName ≠ path →
      (∀ s ∈ (pickle_dump_states fs data tmpName path).dropLast, s path = fs path) ∧
      (pickle_dump_states fs data tmpName path).getLast? =
        some (pickle_dump fs data tmpName path) ∧
      pickle_dump fs data tmpName path path = some data ∧
      (∀ s ∈ pickle_dump_states fs data tmpName path, ∀ q : String,
        q ≠ tempPath tmpName → q ≠ path → s q = fs q) := by
  intro fs data tmpName path hne
  refine ⟨?_, ?_, ?_, ?_⟩
  · intro s hs
    rw [pickle_dump_states, List.dropLast_concat] at hs
    obtain ⟨k, _, rfl⟩ := List.mem_map.1 hs
    simp [fsUpdate, Ne.symm hne]
  · rw [pickle_dump_states, List.getLast?_concat]
  · simp [pickle_dump, fsUpdate]
  · intro s hs q hq1 hq2
    rw [pickle_dump_states, List.mem_append] at hs
    rcases hs with hs | hs
    · obtain ⟨k, _, rfl⟩ := List.mem_map.1 hs
      simp [fsUpdate, hq1]
    · simp only [List.mem_singleton] at hs
      subst hs
      simp [pickle_dump, fsUpdate, hq1, hq2]

/-- C5 witness: the amended flush law instantiated on a concrete filesystem,
blob, temporary name and the schedule cache destination. -/
theorem c5_witness :
    (∀ s ∈ (pickle_dump_states (fun _ => none) [7, 8] ("tmpw")
        ("pickles/schedules.pickle")).dropLast,
      s ("pickles/schedules.pickle") = (fun _ => none : FS) ("pickles/schedules.pickle")) ∧
    (pickle_dump_states (fun _ => none) [7, 8] ("tmpw") ("pickles/schedules.pickle")).getLast? =
      some (pickle_dump (fun _ => none) [7, 8] ("tmpw") ("pickles/schedules.pickle")) ∧
    pickle_dump (fun _ => none) [7, 8] ("tmpw") ("pickles/schedules.pickle")
      ("pickles/schedules.pickle") = some [7, 8] ∧
    (∀ s ∈ pickle_dump_states (fun _ => none) [7, 8] ("tmpw") ("pickles/schedules.pickle"),
      ∀ q : String, q ≠ tempPath ("tmpw") → q ≠ "pickles/schedules.pickle" →
        s q = (fun _ => none : FS) q) :=
  c5_flush_keeps_destination (fun _ => none) [7, 8] ("tmpw")
    ("pickles/schedules.pickle") (by decide)

/-- C7 counterexample: two pitches exposing the same zone 9, one under the
primary field and one only under the secondary field, do not resolve to the
same value: the primary-field pitch scores while the secondary-field pitch
makes get_score raise (none), because the source reads only
pitchData.zone and never probes a fallback field. -/
theorem c7_counterexample :
    exFirstAltOnly.pitchData.altZone = some 9 ∧
    exFirst.pitchData.zone = some 9 ∧
    get_score ("R") exFirst exSecond exThird = some 6 ∧
    get_score ("R") exFirstAltOnly exSecond exThird = none := by
  refine ⟨rfl, rfl, ?_, rfl⟩
  norm_num [get_score, exFirst, exSecond, exThird, outsideZones, insideZones,
    CATCHER_LEFT, CATCHER_RIGHT]

/-- C7 amended: the matcher reads the plate zone from the single field
pitchData.zone with no fallback probe: the score is independent of any
secondary location field, and a pitch whose primary zone field is missing
makes the scoring lookup fail (uncaught KeyError) no matter what a secondary
field holds. -/
theorem c7_zone_single_field :
    (∀ (bs : String) (p1 p2 p3 : PitchEvent) (a1 a2 a3 : Option Nat),
        get_score bs (setAltZone p1 a1) (setAltZone p2 a2) (setAltZone p3 a3) =
          get_score bs p1 p2 p3) ∧
    (∀ (bs : String) (p1 p2 p3 : PitchEvent),
        p1.pitchData.zone = none → get_score bs p1 p2 p3 = none) ∧
    (∀ (bs : String) (p1 p2 p3 : PitchEvent),
        p2.pitchData.zone = none → get_score bs p1 p2 p3 = none) ∧
    (∀ (bs : String) (p1 p2 p3 : PitchEvent),
        p3.pitchData.zone = none → get_score bs p1 p2 p3 = none) := by
  refine ⟨?_, ?_, ?_, ?_⟩
  · intro bs p1 p2 p3 a1 a2 a3
    rfl
  · intro bs p1 p2 p3 h
    cases h2 : p2.pitchData.zone <;> cases h3 : p3.pitchData.startSpeed <;>
      cases h4 : p3.pitchData.zone <;> simp [get_score, h, h2, h3, h4]
  · intro bs p1 p2 p3 h
    cases h1 : p1.pitchData.zone <;> cases h3 : p3.pitchData.startSpeed <;>
      cases h4 : p3.pitchData.zone <;> simp [get_score, h, h1, h3, h4]
  · intro bs p1 p2 p3 h
    cases h1 : p1.pitchData.zone <;> cases h2 : p2.pitchData.zone <;>
      cases h3 : p3.pitchData.startSpeed <;> simp [get_score, h, h1, h2, h3]

/-- C7 witness: a missing primary zone field on the first pitch fails the
lookup at the concrete example pitches. -/
theorem c7_witness :
    get_score ("L") exFirstAltOnly exSecond exThird = none :=
  c7_zone_single_field.2.1 ("L") exFirstAltOnly exSecond exThird rfl

/-- C6 counterexample: an at-bat that passes every gate but lacks the plate
zone on its first pitch makes the matcher crash (uncaught KeyError inside
get_score, which sits outside the try/except of the type-code lookups), and
the play loop aborts at that at-bat instead of tallying it and continuing
with the next one. -/
theorem c6_counterexample :
    evaluatePlay badZonePlay = EvalResult.crash ∧
    processPlays initRS [badZonePlay, missingTypePlay] = Except.error initRS := by
  exact ⟨rfl, rfl⟩

/-- C6 amended: a missing classification field on any of the three pitches
yields no-match without aborting and the loop continues with the next at-bat
(though nothing is tallied and no bad-data rate exists), while a no-match
leaves the state unchanged and a crash aborts the loop, dropping the rest of
the plays. -/
theorem c6_missing_fields :
    (∀ (play : Play) (p1 p2 p3 : PitchEvent),
        resolvePitches play = some [p1, p2, p3] →
        p1.details.typeCode = none →
        evaluatePlay play = EvalResult.noMatch) ∧
    (∀ (play : Play) (p1 p2 p3 : PitchEvent),
        resolvePitches play = some [p1, p2, p3] →
        p2.details.typeCode = none →
        evaluatePlay play = EvalResult.noMatch) ∧
    (∀ (play : Play) (p1 p2 p3 : PitchEvent),
        resolvePitches play = some [p1, p2, p3] →
        p3.details.typeCode = none →
        evaluatePlay play = EvalResult.noMatch) ∧
    (∀ (st : RunState) (play : Play) (rest : List Play),
        evaluatePlay play = EvalResult.noMatch →
        processPlays st (play :: rest) = processPlays st rest) ∧
    (∀ (st : RunState) (play : Play) (rest : List Play),
        evaluatePlay play = EvalResult.crash →
        processPlays st (play :: rest) = Except.error st) := by
  have hlen : ∀ (play : Play) (p1 p2 p3 : PitchEvent),
      resolvePitches play = some [p1, p2, p3] → play.pitchIndex.length = 3 := by
    intro play p1 p2 p3 h
    have := mapM_option_length _ _ _ h
    simpa using this.symm
  refine ⟨?_, ?_, ?_, ?_, ?_⟩
  · intro play p1 p2 p3 h hTC
    by_cases hc : play.count.balls = 0 ∧ play.count.strikes = 3
    · simp only [evaluatePlay, hc, not_true_eq_false, if_false, hlen play p1 p2 p3 h,
        ne_eq, not_false_eq_true, if_neg, h]
      cases hany : ([p1, p2, p3].any fun p => p.details.code == "AC") <;>
        simp [hany, inFamily, hTC]
    · simp [evaluatePlay, hc]
  · intro play p1 p2 p3 h hTC
    by_cases hc : play.count.balls = 0 ∧ play.count.strikes = 3
    · simp only [evaluatePlay, hc, not_true_eq_false, if_false, hlen play p1 p2 p3 h,
        ne_eq, not_false_eq_true, if_neg, h]
      cases hany : ([p1, p2, p3].any fun p => p.details.code == "AC") <;>
        by_cases h1 : inFamily p1.details.typeCode ["SL", "ST"] = true <;>
          simp [hany, h1, inFamily, hTC]
    · simp [evaluatePlay, hc]
  · intro play p1 p2 p3 h hTC
    by_cases hc : play.count.balls = 0 ∧ play.count.strikes = 3
    · simp only [evaluatePlay, hc, not_true_eq_false, if_false, hlen play p1 p2 p3 h,
        ne_eq, not_false_eq_true, if_neg, h]
      cases hany : ([p1, p2, p3].any fun p => p.details.code == "AC") <;>
        by_cases h1 : inFamily p1.details.typeCode ["SL", "ST"] = true <;>
          by_cases h2 : inFamily p2.details.typeCode ["CU", "KC"] = true <;>
            simp [hany, h1, h2, inFamily, hTC]
    · simp [evaluatePlay, hc]
  · intro st play rest hEval
    simp only [processPlays, List.foldlM_cons, processPlay, hEval]
    rfl
  · intro st play rest hEval
    simp only [processPlays, List.foldlM_cons, processPlay, hEval]
    rfl

/-- C6 witness: the at-bat with the missing classification field yields
no-match, and the loop then continues unchanged past it. -/
theorem c6_witness :
    evaluatePlay missingTypePlay = EvalResult.noMatch :=
  c6_missing_fields.1 missingTypePlay exFirstNoType exSecond exThird (by decide) rfl

/-- C8: a scheduled game reaches the play-by-play fetch and at-bat evaluation
body exactly when its status is Final and its game type is neither exhibition
nor spring training; every other scheduled game is skipped with no state
change. -/
theorem c8_game_filter :
    ∀ (env : Env) (acc : RunState × List (Nat × GameRecord) × Bool) (g : ScheduledGame),
      (specProcessed g → processGame env acc g = processFinalGame env acc g) ∧
      (¬ specProcessed g → processGame env acc g = Except.ok acc) := by
  intro env acc g
  constructor
  · intro h
    obtain ⟨h1, h2, h3⟩ := h
    unfold processGame
    rw [if_neg, if_neg]
    · rintro (h | h) <;> [exact h2 h; exact h3 h]
    · simp [h1]
  · intro h
    unfold processGame
    unfold specProcessed at h
    push_neg at h
    by_cases h1 : g.status = "Final"
    · by_cases h2 : g.game_type = "E"
      · rw [if_neg (by simp [h1]), if_pos (Or.inl h2)]
      · have h3 := h h1 h2
        rw [if_neg (by simp [h1]), if_pos (Or.inr h3)]
    · rw [if_pos h1]

/-- C8 witness: the concrete finished regular-season game enters the
evaluation body. -/
theorem c8_witness :
    processGame emptyEnv (initRS, [], false) finalGame =
      processFinalGame emptyEnv (initRS, [], false) finalGame :=
  (c8_game_filter emptyEnv (initRS, [], false) finalGame).1 (by decide)

/-- Helper: emit keeps the best accumulator. -/
theorem emit_best (q : Bool) (m : String) (st : RunState) :
    (emit q m st).best = st.best := by
  unfold emit; split <;> rfl

/-- Helper: emit keeps the schedule dict. -/
theorem emit_schedules (q : Bool) (m : String) (st : RunState) :
    (emit q m st).schedules = st.schedules := by
  unfold emit; split <;> rfl

/-- Helper: emit keeps the persisted schedule cache. -/
theorem emit_schedPersisted (q : Bool) (m : String) (st : RunState) :
    (emit q m st).schedPersisted = st.schedPersisted := by
  unfold emit; split <;> rfl

/-- Helper: emit keeps the persisted play-by-play caches. -/
theorem emit_pbpPersisted (q : Bool) (m : String) (st : RunState) :
    (emit q m st).pbpPersisted = st.pbpPersisted := by
  unfold emit; split <;> rfl

/-- Helper: emit keeps the schedule request log. -/
theorem emit_schedLog (q : Bool) (m : String) (st : RunState) :
    (emit q m st).schedLog = st.schedLog := by
  unfold emit; split <;> rfl

/-- Helper: emit keeps the play-by-play request log. -/
theorem emit_pbpLog (q : Bool) (m : String) (st : RunState) :
    (emit q m st).pbpLog = st.pbpLog := by
  unfold emit; split <;> rfl

/-- Helper: emit keeps the whole console-free projection. -/
theorem emit_core (q : Bool) (m : String) (st : RunState) :
    (emit q m st).core = st.core := by
  unfold emit RunState.core; split <;> rfl

/-- Helper: equal cores mean equal console-free fields. -/
theorem core_fields {st st' : RunState} (h : st.core = st'.core) :
    st.best = st'.best ∧ st.schedules = st'.schedules ∧
    st.schedPersisted = st'.schedPersisted ∧ st.pbpPersisted = st'.pbpPersisted ∧
    st.schedLog = st'.schedLog ∧ st.pbpLog = st'.pbpLog := by
  unfold RunState.core at h
  simp only [Prod.mk.injEq] at h
  exact h

/-- Helper: inversion of equal core results. -/
theorem coreResult_inv {a b : Except RunState RunState}
    (h : coreResult a = coreResult b) :
    (∃ sa sb, a = Except.ok sa ∧ b = Except.ok sb ∧ sa.core = sb.core) ∨
    (∃ sa sb, a = Except.error sa ∧ b = Except.error sb ∧ sa.core = sb.core) := by
  cases a with
  | ok sa =>
    cases b with
    | ok sb =>
      left
      exact ⟨sa, sb, rfl, rfl, by simpa [coreResult] using h⟩
    | error sb => simp [coreResult] at h
  | error sa =>
    cases b with
    | ok sb => simp [coreResult] at h
    | error sb =>
      right
      exact ⟨sa, sb, rfl, rfl, by simpa [coreResult] using h⟩

/-- Helper: inversion of equal accumulator core results. -/
theorem coreResultAcc_inv
    {x y : Except RunState (RunState × List (Nat × GameRecord) × Bool)}
    (h : coreResultAcc x = coreResultAcc y) :
    (∃ a b, x = Except.ok a ∧ y = Except.ok b ∧ accCore a = accCore b) ∨
    (∃ sa sb, x = Except.error sa ∧ y = Except.error sb ∧ sa.core = sb.core) := by
  cases x with
  | ok a =>
    cases y with
    | ok b =>
      left
      exact ⟨a, b, rfl, rfl, by simpa [coreResultAcc] using h⟩
    | error sb => simp [coreResultAcc] at h
  | error sa =>
    cases y with
    | ok b => simp [coreResultAcc] at h
    | error sb =>
      right
      exact ⟨sa, sb, rfl, rfl, by simpa [coreResultAcc] using h⟩

/-- Helper: equal accumulator cores mean equal components. -/
theorem accCore_fields {a b : RunState × List (Nat × GameRecord) × Bool}
    (h : accCore a = accCore b) :
    a.1.core = b.1.core ∧ a.2.1 = b.2.1 ∧ a.2.2 = b.2.2 := by
  unfold accCore at h
  simp only [Prod.mk.injEq] at h
  exact ⟨h.1, congrArg Prod.fst h.2, congrArg Prod.snd h.2⟩

/-- Helper: a play step depends only on the console-free projection. -/
theorem processPlay_core {st st' : RunState} (h : st.core = st'.core) (p : Play) :
    coreResult (processPlay st p) = coreResult (processPlay st' p) := by
  obtain ⟨h1, h2, h3, h4, h5, h6⟩ := core_fields h
  unfold processPlay
  cases evaluatePlay p with
  | noMatch => simp [coreResult, h]
  | crash => simp [coreResult, h]
  | candidate s =>
    simp only [coreResult, Except.ok.injEq]
    unfold RunState.core
    simp [h1, h2, h3, h4, h5, h6]

/-- Helper: the play loop depends only on the console-free projection. -/
theorem processPlays_core (plays : List Play) :
    ∀ {st st' : RunState}, st.core = st'.core →
      coreResult (processPlays st plays) = coreResult (processPlays st' plays) := by
  induction plays with
  | nil =>
    intro st st' h
    show coreResult (Except.ok st) = coreResult (Except.ok st')
    simp [coreResult, h]
  | cons hd tl ih =>
    intro st st' h
    have hp := processPlay_core h hd
    unfold processPlays at *
    rw [List.foldlM_cons, List.foldlM_cons]
    rcases coreResult_inv hp with ⟨sa, sb, ha, hb, hc⟩ | ⟨sa, sb, ha, hb, hc⟩
    · rw [ha, hb]
      show coreResult (List.foldlM processPlay sa tl) =
        coreResult (List.foldlM processPlay sb tl)
      exact ih hc
    · rw [ha, hb]
      show coreResult (Except.error sa) = coreResult (Except.error sb)
      simp [coreResult, hc]

/-- Helper: cores stay equal when the same suffix is appended to the
play-by-play request log of two core-equal states. -/
theorem core_append_pbpLog {st st' : RunState} (h : st.core = st'.core) (l : List Nat) :
    ({ st with pbpLog := st.pbpLog ++ l } : RunState).core =
    ({ st' with pbpLog := st'.pbpLog ++ l } : RunState).core := by
  obtain ⟨h1, h2, h3, h4, h5, h6⟩ := core_fields h
  unfold RunState.core
  simp [h1, h2, h3, h4, h5, h6]

/-- Helper: a game step depends only on the console-free projection of its
accumulator. -/
theorem processGame_core (env : Env)
    {a b : RunState × List (Nat × GameRecord) × Bool}
    (h : accCore a = accCore b) (g : ScheduledGame) :
    coreResultAcc (processGame env a g) = coreResultAcc (processGame env b g) := by
  obtain ⟨hst, hpbp, hupd⟩ := accCore_fields h
  unfold processGame
  by_cases hs : g.status ≠ "Final"
  · rw [if_pos hs, if_pos hs]
    simp [coreResultAcc, h]
  · rw [if_neg hs, if_neg hs]
    by_cases ht : g.game_type = "E" ∨ g.game_type = "S"
    · rw [if_pos ht, if_pos ht]
      simp [coreResultAcc, h]
    · rw [if_neg ht, if_neg ht]
      unfold processFinalGame
      rw [hpbp, hupd]
      cases hl : (b.2.1).lookup g.game_id with
      | some game =>
        dsimp only
        have hp := processPlays_core game.allPlays hst
        rcases coreResult_inv hp with ⟨sa, sb, ha, hb, hc⟩ | ⟨sa, sb, ha, hb, hc⟩ <;>
          rw [ha, hb] <;>
          simp [coreResultAcc, accCore, Except.map, hc, hpbp, hupd]
      | none =>
        dsimp only
        have hcu := core_append_pbpLog hst [g.game_id]
        have hp := processPlays_core (env.fetchPbp g.game_id).allPlays hcu
        rcases coreResult_inv hp with ⟨sa, sb, ha, hb, hc⟩ | ⟨sa, sb, ha, hb, hc⟩ <;>
          rw [ha, hb] <;>
          simp [coreResultAcc, accCore, Except.map, hc, hpbp]

/-- Helper: the game loop depends only on the console-free projection of its
accumulator. -/
theorem foldGames_core (env : Env) (games : List ScheduledGame) :
    ∀ {a b : RunState × List (Nat × GameRecord) × Bool}, accCore a = accCore b →
      coreResultAcc (List.foldlM (processGame env) a games) =
      coreResultAcc (List.foldlM (processGame env) b games) := by
  induction games with
  | nil =>
    intro a b h
    show coreResultAcc (Except.ok a) = coreResultAcc (Except.ok b)
    simp [coreResultAcc, h]
  | cons hd tl ih =>
    intro a b h
    rw [List.foldlM_cons, List.foldlM_cons]
    have hp := processGame_core env h hd
    rcases coreResultAcc_inv hp with ⟨xa, xb, ha, hb, hc⟩ | ⟨sa, sb, ha, hb, hc⟩
    · rw [ha, hb]
      show coreResultAcc (List.foldlM (processGame env) xa tl) =
        coreResultAcc (List.foldlM (processGame env) xb tl)
      exact ih hc
    · rw [ha, hb]
      show coreResultAcc (Except.error sa) = coreResultAcc (Except.error sb)
      simp [coreResultAcc, hc]

/-- Helper: the schedule phase yields the same games and core for any quiet
flags on core-equal states. -/
theorem yearSchedule_core (env : Env) (q q' : Bool) (year : Nat)
    {st st' : RunState} (h : st.core = st'.core) :
    (yearSchedule env q st year).1 = (yearSchedule env q' st' year).1 ∧
    (yearSchedule env q st year).2.core = (yearSchedule env q' st' year).2.core := by
  obtain ⟨h1, h2, h3, h4, h5, h6⟩ := core_fields h
  unfold yearSchedule
  rw [h2]
  cases hv : (st'.schedules.lookup year).isSome
  · by_cases hy : year < env.current_year
    · constructor <;>
        simp [hv, hy, emit_best, emit_schedules, emit_schedPersisted,
          emit_pbpPersisted, emit_schedLog, emit_pbpLog, RunState.core,
          h1, h2, h3, h4, h5, h6]
    · constructor <;>
        simp [hv, hy, emit_best, emit_schedules, emit_schedPersisted,
          emit_pbpPersisted, emit_schedLog, emit_pbpLog, RunState.core,
          h1, h2, h3, h4, h5, h6]
  · constructor <;>
      simp [hv, emit_best, emit_schedules, emit_schedPersisted,
        emit_pbpPersisted, emit_schedLog, emit_pbpLog, RunState.core,
        h1, h2, h3, h4, h5, h6]

/-- Helper: the play-by-play read phase yields the same map and core for any
quiet flags on core-equal states. -/
theorem yearReadPbp_core (env : Env) (q q' : Bool) (year : Nat)
    {st st' : RunState} (h : st.core = st'.core) :
    (yearReadPbp env q st year).1 = (yearReadPbp env q' st' year).1 ∧
    (yearReadPbp env q st year).2.core = (yearReadPbp env q' st' year).2.core := by
  unfold yearReadPbp
  cases env.pbpFile year <;> simp [emit_core, h]

/-- Helper: the finish phase yields the same core for any quiet flags on
accumulator-core-equal inputs. -/
theorem yearFinish_core (q q' : Bool) (year : Nat)
    {a b : RunState × List (Nat × GameRecord) × Bool}
    (h : accCore a = accCore b) :
    (yearFinish q year a).core = (yearFinish q' year b).core := by
  obtain ⟨hst, hpbp, hupd⟩ := accCore_fields h
  obtain ⟨h1, h2, h3, h4, h5, h6⟩ := core_fields hst
  unfold yearFinish
  rw [hupd]
  by_cases hf : b.2.2 = true
  · rw [if_pos hf, if_pos hf]
    unfold RunState.core
    simp [emit_best, emit_schedules, emit_schedPersisted, emit_pbpPersisted,
      emit_schedLog, emit_pbpLog, h1, h2, h3, h4, h5, h6, hpbp]
  · rw [if_neg hf, if_neg hf]
    unfold RunState.core
    simp [emit_best, emit_schedules, emit_schedPersisted, emit_pbpPersisted,
      emit_schedLog, emit_pbpLog, h1, h2, h3, h4, h5, h6]

/-- Helper: a whole year iteration depends only on the console-free
projection, for any pair of quiet flags. -/
theorem processYear_core (env : Env) (q q' : Bool) (year : Nat)
    {st st' : RunState} (h : st.core = st'.core) :
    coreResult (processYear env q st year) = coreResult (processYear env q' st' year) := by
  obtain ⟨hg, hs3⟩ := yearSchedule_core env q q' year h
  obtain ⟨hp, hs4⟩ := yearReadPbp_core env q q' year hs3
  unfold processYear
  rw [hg, hp]
  have hacc : accCore ((yearReadPbp env q (yearSchedule env q st year).2 year).2,
      (yearReadPbp env q' (yearSchedule env q' st' year).2 year).1, false) =
      accCore ((yearReadPbp env q' (yearSchedule env q' st' year).2 year).2,
      (yearReadPbp env q' (yearSchedule env q' st' year).2 year).1, false) := by
    unfold accCore
    simp [hs4]
  have hfold := foldGames_core env (yearSchedule env q' st' year).1 hacc
  rcases coreResultAcc_inv hfold with ⟨xa, xb, ha, hb, hc⟩ | ⟨sa, sb, ha, hb, hc⟩
  · rw [ha, hb]
    simp [coreResult, yearFinish_core q q' year hc]
  · rw [ha, hb]
    simp [coreResult, hc]

/-- Helper: the year loop depends only on the console-free projection, for
any pair of quiet flags. -/
theorem foldYears_core (env : Env) (q q' : Bool) (ys : List Nat) :
    ∀ {st st' : RunState}, st.core = st'.core →
      coreResult (List.foldlM (processYear env q) st ys) =
      coreResult (List.foldlM (processYear env q') st' ys) := by
  induction ys with
  | nil =>
    intro st st' h
    show coreResult (Except.ok st) = coreResult (Except.ok st')
    simp [coreResult, h]
  | cons y tl ih =>
    intro st st' h
    rw [List.foldlM_cons, List.foldlM_cons]
    have hp := processYear_core env q q' y h
    rcases coreResult_inv hp with ⟨sa, sb, ha, hb, hc⟩ | ⟨sa, sb, ha, hb, hc⟩
    · rw [ha, hb]
      show coreResult (List.foldlM (processYear env q) sa tl) =
        coreResult (List.foldlM (processYear env q') sb tl)
      exact ih hc
    · rw [ha, hb]
      show coreResult (Except.error sa) = coreResult (Except.error sb)
      simp [coreResult, hc]

/-- C9: the quiet flag is output-only noninterference: over the same world
(oracles and initial cache files) a run with any quiet flag yields the same
console-free observables as a run with quiet off: the same best plays and
best score, the same persisted schedule and play-by-play cache contents, the
same network requests, and a crash at the same point; only the console output
differs. -/
theorem c9_quiet_noninterference (env : Env) (q : Bool) :
    coreResult (runProgram env q) = coreResult (runProgram env false) := by
  unfold runProgram
  have hf := foldYears_core env q false (yearsList env.current_year)
    (rfl : (initState env).core = (initState env).core)
  rcases coreResult_inv hf with ⟨sa, sb, ha, hb, hc⟩ | ⟨sa, sb, ha, hb, hc⟩
  · rw [ha, hb]
    obtain ⟨h1, h2, h3, h4, h5, h6⟩ := core_fields hc
    simp [coreResult, RunState.core, h1, h2, h3, h4, h5, h6]
  · rw [ha, hb]
    simp [coreResult, hc]

end Baseball
